import Mathlib

/-!
Verification of the `arc-cow` crate: the type `ArcCow<'a, T>` with variants
`Borrowed(&'a T)` and `Owned(Arc<T>)` and its delegating trait
implementations (PartialEq, PartialOrd, Ord, Hash, Clone, Debug, Deref,
AsRef, Borrow) and `From` conversions.

Two complementary shallow embeddings of the same source are used:

* a value model (top level `ArcCow`): since the type is read only, a
  shared reference `&'a T` and a handle `Arc<T>` are both determined by
  the content value of type `T` they resolve to, so both variants carry
  that value directly.  All content directed behaviour (equality,
  ordering, hashing, formatting, the read paths, the content preserving
  conversions) lives here.

* a reference model (namespace `RC`): allocation identity and strong
  counts are explicit.  A `Store` is a list of cells, each a pair of a
  content value and a strong count; a reference (borrowed pointer or Arc
  handle) is an address, the index of a cell.  Cloning an `Owned` value
  bumps the count of its cell and keeps the address; reads go through
  `Option`, failing exactly on a dangling address, which lets totality be
  stated.
-/

inductive VariantTag : Type where
  | borrowed
  | owned
deriving DecidableEq

/-- Value model of the enum `ArcCow` from the source:
`Borrowed(&'a T) | Owned(Arc<T>)`, with both indirections collapsed to
the content value. -/
inductive ArcCow (T : Type) : Type where
  | Borrowed (r : T)
  | Owned (arc : T)

/-- The variant of a value; models Rust `matches!(v, ArcCow::Borrowed(_))`
discrimination. -/
def ArcCow.tag {T : Type} : ArcCow T → VariantTag
  | .Borrowed _ => .borrowed
  | .Owned _ => .owned

/-- `impl AsRef<T> for ArcCow`: select the data of the active variant. -/
def ArcCow.as_ref {T : Type} : ArcCow T → T
  | .Borrowed borrowed => borrowed
  | .Owned owned => owned

/-- `impl Deref for ArcCow`: select the data of the active variant. -/
def ArcCow.deref {T : Type} : ArcCow T → T
  | .Borrowed s => s
  | .Owned s => s

/-- `impl Borrow<T> for ArcCow`: select the data of the active variant. -/
def ArcCow.borrow {T : Type} : ArcCow T → T
  | .Borrowed borrowed => borrowed
  | .Owned owned => owned

/-- `impl PartialEq for ArcCow`: resolve both operands with `as_ref`, then
delegate to the equality of `T`, passed as `beqT`. -/
def ArcCow.beq {T : Type} (beqT : T → T → Bool) (x y : ArcCow T) : Bool :=
  let a := x.as_ref
  let b := y.as_ref
  beqT a b

/-- `impl PartialOrd for ArcCow`: `self.as_ref().partial_cmp(other.as_ref())`,
with the comparison of `T` passed as `pcmpT`. -/
def ArcCow.pcmp {T : Type} (pcmpT : T → T → Option Ordering) (x y : ArcCow T) :
    Option Ordering :=
  pcmpT x.as_ref y.as_ref

/-- `impl Ord for ArcCow`: `self.as_ref().cmp(other.as_ref())`, with the
total comparison of `T` passed as `cmpT`. -/
def ArcCow.cmp {T : Type} (cmpT : T → T → Ordering) (x y : ArcCow T) : Ordering :=
  cmpT x.as_ref y.as_ref

/-- `impl Hash for ArcCow`: hash through to the content in either variant.
A hasher is modelled as a state of type `σ` and the hash function of `T`
as a state transformer `hashT`. -/
def ArcCow.hash {T σ : Type} (hashT : T → σ → σ) (v : ArcCow T) (state : σ) : σ :=
  match v with
  | .Borrowed borrowed => hashT borrowed state
  | .Owned owned => hashT owned state

/-- `impl Clone for ArcCow`: `Borrowed` copies the reference, `Owned`
clones the Arc handle.  In the value model both sides resolve to the same
content, so cloning is the identity; sharing of the allocation is made
explicit in `RC.clone`. -/
def ArcCow.clone {T : Type} : ArcCow T → ArcCow T
  | .Borrowed borrowed => .Borrowed borrowed
  | .Owned owned => .Owned owned

/-- `impl Debug for ArcCow`: delegate to the Debug formatting of `T`,
passed as `fmtT`, on the content of either variant. -/
def ArcCow.fmt {T : Type} (fmtT : T → String) : ArcCow T → String
  | .Borrowed borrowed => fmtT borrowed
  | .Owned owned => fmtT owned

/-- `impl From<&'a T> for ArcCow<'a, T>`: wrap the reference as `Borrowed`. -/
def ArcCow.from_ref {T : Type} (s : T) : ArcCow T := .Borrowed s

/-- `impl From<String> for ArcCow<'_, str>`: `Owned(value.into())`; the
`Arc<str>` produced by `into` holds the same text. -/
def ArcCow.from_string (value : String) : ArcCow String := .Owned value

/-- `str::as_bytes`: the UTF-8 byte sequence of a string, each byte as a
natural number. -/
def str_as_bytes (s : String) : List Nat :=
  (s.data.flatMap String.utf8EncodeChar).map UInt8.toNat

/-- `impl From<&'a str> for ArcCow<'a, [u8]>`:
`ArcCow::Borrowed(s.as_bytes())`. -/
def ArcCow.from_str_bytes (s : String) : ArcCow (List Nat) :=
  .Borrowed (str_as_bytes s)

namespace RC

/-- The memory backing the reference model: a list of cells, one per
allocation, each holding a content value and a strong count.  An address
is an index into this list. -/
structure Store (T : Type) : Type where
  cells : List (T × Nat)

/-- Index lookup in a list, `none` past the end. -/
def lookup {α : Type} : List α → Nat → Option α
  | [], _ => none
  | x :: _, 0 => some x
  | _ :: xs, n + 1 => lookup xs n

/-- Apply `f` to the element at index `n`, leaving the list unchanged when
`n` is out of range. -/
def modifyAt {α : Type} : List α → Nat → (α → α) → List α
  | [], _, _ => []
  | x :: xs, 0, f => f x :: xs
  | x :: xs, n + 1, f => x :: modifyAt xs n f

/-- Dereference an address: the content of its cell, `none` when dangling. -/
def Store.read {T : Type} (st : Store T) (a : Nat) : Option T :=
  (lookup st.cells a).map Prod.fst

/-- `Arc::strong_count` at an address (0 when dangling). -/
def Store.count {T : Type} (st : Store T) (a : Nat) : Nat :=
  ((lookup st.cells a).map Prod.snd).getD 0

/-- A live address: its cell exists. -/
abbrev Store.valid {T : Type} (st : Store T) (a : Nat) : Prop :=
  (st.read a).isSome = true

/-- Number of allocations ever made (cells are never removed, a dead cell
keeps count 0). -/
def Store.size {T : Type} (st : Store T) : Nat := st.cells.length

/-- `Arc::new` / `Arc::from`: append a fresh cell with strong count 1 and
return its address. -/
def Store.alloc {T : Type} (st : Store T) (x : T) : Store T × Nat :=
  (⟨st.cells ++ [(x, 1)]⟩, st.cells.length)

/-- Increment the strong count of the cell at `a` (an `Arc` clone). -/
def Store.bump {T : Type} (st : Store T) (a : Nat) : Store T :=
  ⟨modifyAt st.cells a (fun c => (c.1, c.2 + 1))⟩

/-- Decrement the strong count of the cell at `a` (an `Arc` drop). -/
def Store.dec {T : Type} (st : Store T) (a : Nat) : Store T :=
  ⟨modifyAt st.cells a (fun c => (c.1, c.2 - 1))⟩

/-- Reference model of the enum `ArcCow`: each variant carries the address
of the referenced allocation. -/
inductive ArcCow : Type where
  | Borrowed (r : Nat)
  | Owned (arc : Nat)

/-- The variant of a value in the reference model. -/
def ArcCow.tag : ArcCow → VariantTag
  | .Borrowed _ => .borrowed
  | .Owned _ => .owned

/-- `impl AsRef<T>` in the reference model: the address the active variant
resolves to. -/
def ArcCow.as_ref : ArcCow → Nat
  | .Borrowed borrowed => borrowed
  | .Owned owned => owned

/-- `impl Deref` in the reference model. -/
def ArcCow.deref : ArcCow → Nat
  | .Borrowed s => s
  | .Owned s => s

/-- `impl Borrow<T>` in the reference model. -/
def ArcCow.borrow : ArcCow → Nat
  | .Borrowed borrowed => borrowed
  | .Owned owned => owned

/-- `impl Clone for ArcCow` in the reference model: `Borrowed` copies the
address; `Owned` clones the Arc handle, bumping the count of the same
cell. -/
def clone {T : Type} (st : Store T) : ArcCow → Store T × ArcCow
  | .Borrowed borrowed => (st, .Borrowed borrowed)
  | .Owned owned => (st.bump owned, .Owned owned)

/-- Dropping an `ArcCow`: `Borrowed` is a no-op, `Owned` drops its Arc
handle, decrementing the count of its cell. -/
def drop {T : Type} (st : Store T) : ArcCow → Store T
  | .Borrowed _ => st
  | .Owned owned => st.dec owned

/-- `impl From<Arc<T>> for ArcCow`: wrap the handle, by value. -/
def from_arc {T : Type} (st : Store T) (a : Nat) : Store T × ArcCow :=
  (st, .Owned a)

/-- `impl From<&Arc<T>> for ArcCow`: `Owned(s.clone())`, bumping the count
of the cell the source handle points to. -/
def from_arc_ref {T : Type} (st : Store T) (a : Nat) : Store T × ArcCow :=
  (st.bump a, .Owned a)

/-- `Cow<'a, str>` in the reference model: a borrowed reference is an
address, an owned value is carried directly. -/
inductive Cow (T : Type) : Type where
  | Borrowed (r : Nat)
  | Owned (o : T)

/-- `impl From<Cow<'a, str>> for ArcCow<'a, str>`: a borrowed cow keeps
its reference, an owned cow moves its value into a fresh reference
counted allocation. -/
def from_cow {T : Type} (st : Store T) : Cow T → Store T × ArcCow
  | .Borrowed borrowed => (st, .Borrowed borrowed)
  | .Owned owned =>
      let r := st.alloc owned
      (r.1, .Owned r.2)

/-- Well formed value: the address it resolves to is live in the store. -/
abbrev validIn {T : Type} (st : Store T) (v : ArcCow) : Prop :=
  st.valid v.as_ref

/-- Dereferencing in the reference model, failing on a dangling address. -/
def derefV {T : Type} (st : Store T) (v : ArcCow) : Option T :=
  st.read v.deref

/-- `PartialEq::eq` in the reference model. -/
def beqV {T : Type} (beqT : T → T → Bool) (st : Store T) (x y : ArcCow) :
    Option Bool :=
  (st.read x.as_ref).bind (fun a => (st.read y.as_ref).map (fun b => beqT a b))

/-- `Ord::cmp` in the reference model. -/
def cmpV {T : Type} (cmpT : T → T → Ordering) (st : Store T) (x y : ArcCow) :
    Option Ordering :=
  (st.read x.as_ref).bind (fun a => (st.read y.as_ref).map (fun b => cmpT a b))

/-- `PartialOrd::partial_cmp` in the reference model; the outer `Option`
is memory failure, the inner one is the comparison result of `T`. -/
def pcmpV {T : Type} (pcmpT : T → T → Option Ordering) (st : Store T)
    (x y : ArcCow) : Option (Option Ordering) :=
  (st.read x.as_ref).bind (fun a => (st.read y.as_ref).map (fun b => pcmpT a b))

/-- `Hash::hash` in the reference model. -/
def hashV {T σ : Type} (hashT : T → σ → σ) (st : Store T) (v : ArcCow)
    (state : σ) : Option σ :=
  (st.read v.as_ref).map (fun t => hashT t state)

/-- `Debug::fmt` in the reference model. -/
def fmtV {T : Type} (fmtT : T → String) (st : Store T) (v : ArcCow) :
    Option String :=
  (st.read v.as_ref).map fmtT

end RC

theorem RC.lookup_modifyAt_self {α : Type} (l : List α) (n : Nat) (f : α → α) :
    RC.lookup (RC.modifyAt l n f) n = (RC.lookup l n).map f := by
  induction l generalizing n with
  | nil => cases n <;> rfl
  | cons x xs ih =>
    cases n with
    | zero => rfl
    | succ m => simpa [RC.lookup, RC.modifyAt] using ih m

theorem RC.modifyAt_length {α : Type} (l : List α) (n : Nat) (f : α → α) :
    (RC.modifyAt l n f).length = l.length := by
  induction l generalizing n with
  | nil => rfl
  | cons x xs ih => cases n <;> simp [RC.modifyAt, ih]

theorem RC.lookup_fst_modifyAt {α β : Type} (l : List (α × β)) (n b : Nat)
    (f : α × β → α × β) (hf : ∀ c, (f c).1 = c.1) :
    (RC.lookup (RC.modifyAt l n f) b).map Prod.fst
      = (RC.lookup l b).map Prod.fst := by
  induction l generalizing n b with
  | nil => cases n <;> rfl
  | cons x xs ih =>
    cases n with
    | zero =>
      cases b with
      | zero => simp [RC.lookup, RC.modifyAt, hf]
      | succ m => rfl
    | succ m =>
      cases b with
      | zero => rfl
      | succ k => simpa [RC.lookup, RC.modifyAt] using ih m k

theorem RC.lookup_append_self {α : Type} (l : List α) (x : α) :
    RC.lookup (l ++ [x]) l.length = some x := by
  induction l with
  | nil => rfl
  | cons y ys ih => simpa [RC.lookup] using ih

theorem RC.Store.read_bump {T : Type} (st : RC.Store T) (a b : Nat) :
    (st.bump a).read b = st.read b :=
  RC.lookup_fst_modifyAt st.cells a b _ (fun _ => rfl)

theorem RC.Store.count_bump {T : Type} (st : RC.Store T) (a : Nat)
    (h : st.valid a) : (st.bump a).count a = st.count a + 1 := by
  cases hc : RC.lookup st.cells a with
  | none => simp [RC.Store.valid, RC.Store.read, hc] at h
  | some c =>
    simp [RC.Store.count, RC.Store.bump, RC.lookup_modifyAt_self, hc]

theorem RC.Store.count_dec {T : Type} (st : RC.Store T) (a : Nat) :
    (st.dec a).count a = st.count a - 1 := by
  cases hc : RC.lookup st.cells a with
  | none => simp [RC.Store.count, RC.Store.dec, RC.lookup_modifyAt_self, hc]
  | some c => simp [RC.Store.count, RC.Store.dec, RC.lookup_modifyAt_self, hc]

theorem RC.ArcCow.deref_eq_as_ref (v : RC.ArcCow) : v.deref = v.as_ref := by
  cases v <;> rfl

/-- Claim C1: equality and hashing are representation transparent.  For
every content value `x`, `Borrowed(x)` equals `Owned(Arc::new(x))` under
the derived equality, and both produce the same hasher output from every
starting state; two values of any variants are equal iff their
dereferenced contents are equal under the equality of `T`; and when the
hash of `T` respects the equality of `T`, equal values hash identically. -/
theorem C1_representation_transparency {T σ : Type}
    (beqT : T → T → Bool) (hashT : T → σ → σ) (x : T) (s : σ)
    (v w : ArcCow T)
    (hrefl : beqT x x = true)
    (hcompat : ∀ a b s0, beqT a b = true → hashT a s0 = hashT b s0) :
    ArcCow.beq beqT (ArcCow.Borrowed x) (ArcCow.Owned x) = true
    ∧ ArcCow.hash hashT (ArcCow.Borrowed x) s = ArcCow.hash hashT (ArcCow.Owned x) s
    ∧ (ArcCow.beq beqT v w = true ↔ beqT v.as_ref w.as_ref = true)
    ∧ (ArcCow.beq beqT v w = true →
        ArcCow.hash hashT v s = ArcCow.hash hashT w s) := by
  refine ⟨hrefl, rfl, Iff.rfl, ?_⟩
  intro h
  have hh := hcompat v.as_ref w.as_ref s h
  cases v <;> cases w <;> exact hh

/-- Witness for C1 at `T = Nat` with `beqT = Nat.beq` and a concrete
polynomial hasher. -/
theorem C1_representation_transparency_witness :
    Nat.beq 5 5 = true
    ∧ (ArcCow.beq Nat.beq (ArcCow.Borrowed 5) (ArcCow.Owned 5) = true
      ∧ ArcCow.hash (fun t s => s * 31 + t) (ArcCow.Borrowed 5) 0
          = ArcCow.hash (fun t s => s * 31 + t) (ArcCow.Owned 5) 0
      ∧ (ArcCow.beq Nat.beq (ArcCow.Borrowed 1) (ArcCow.Owned 1) = true ↔
          Nat.beq (ArcCow.as_ref (ArcCow.Borrowed 1))
            (ArcCow.as_ref (ArcCow.Owned 1)) = true)
      ∧ (ArcCow.beq Nat.beq (ArcCow.Borrowed 1) (ArcCow.Owned 1) = true →
          ArcCow.hash (fun t s => s * 31 + t) (ArcCow.Borrowed 1) 0
            = ArcCow.hash (fun t s => s * 31 + t) (ArcCow.Owned 1) 0)) :=
  ⟨by decide,
    C1_representation_transparency Nat.beq (fun t s => s * 31 + t) 5 0
      (ArcCow.Borrowed 1) (ArcCow.Owned 1) (by decide)
      (fun a b s0 h => by rw [Nat.eq_of_beq_eq_true h])⟩

/-- Claim C2: ordering delegates entirely to `T`.  When the comparison of
`T` says `x < y`, all four variant combinations compare strictly less,
and both `cmp` and the optional comparison on two values equal the
comparison of `T` on their dereferenced contents. -/
theorem C2_ordering_delegation {T : Type}
    (cmpT : T → T → Ordering) (pcmpT : T → T → Option Ordering)
    (x y : T) (h : pcmpT x y = some Ordering.lt) :
    ArcCow.pcmp pcmpT (ArcCow.Borrowed x) (ArcCow.Borrowed y) = some Ordering.lt
    ∧ ArcCow.pcmp pcmpT (ArcCow.Borrowed x) (ArcCow.Owned y) = some Ordering.lt
    ∧ ArcCow.pcmp pcmpT (ArcCow.Owned x) (ArcCow.Borrowed y) = some Ordering.lt
    ∧ ArcCow.pcmp pcmpT (ArcCow.Owned x) (ArcCow.Owned y) = some Ordering.lt
    ∧ (∀ v w : ArcCow T, ArcCow.cmp cmpT v w = cmpT v.as_ref w.as_ref)
    ∧ (∀ v w : ArcCow T, ArcCow.pcmp pcmpT v w = pcmpT v.as_ref w.as_ref) :=
  ⟨h, h, h, h, fun _ _ => rfl, fun _ _ => rfl⟩

/-- Witness for C2 at `T = Nat` with the standard comparison, on the pair
`1 < 2`. -/
theorem C2_ordering_delegation_witness :
    (fun a b : Nat => some (compare a b)) 1 2 = some Ordering.lt
    ∧ (ArcCow.pcmp (fun a b : Nat => some (compare a b))
          (ArcCow.Borrowed 1) (ArcCow.Borrowed 2) = some Ordering.lt
      ∧ ArcCow.pcmp (fun a b : Nat => some (compare a b))
          (ArcCow.Borrowed 1) (ArcCow.Owned 2) = some Ordering.lt
      ∧ ArcCow.pcmp (fun a b : Nat => some (compare a b))
          (ArcCow.Owned 1) (ArcCow.Borrowed 2) = some Ordering.lt
      ∧ ArcCow.pcmp (fun a b : Nat => some (compare a b))
          (ArcCow.Owned 1) (ArcCow.Owned 2) = some Ordering.lt
      ∧ (∀ v w : ArcCow Nat, ArcCow.cmp compare v w = compare v.as_ref w.as_ref)
      ∧ (∀ v w : ArcCow Nat,
          ArcCow.pcmp (fun a b : Nat => some (compare a b)) v w
            = (fun a b : Nat => some (compare a b)) v.as_ref w.as_ref)) :=
  ⟨by decide,
    C2_ordering_delegation compare (fun a b : Nat => some (compare a b)) 1 2
      (by decide)⟩

/-- Claim C3: cloning is variant preserving and content preserving.  In
the value model a clone is the original; in the reference model cloning a
`Borrowed` value returns the same address and leaves the store untouched,
cloning an `Owned` value returns the same allocation address, allocates
nothing new, and changes no stored content (only the strong count of the
shared cell), and the tag of a clone is the tag of the original — no
operation changes the variant after construction. -/
theorem C3_clone_variant_preserving {T : Type} (v : ArcCow T)
    (st : RC.Store T) (w : RC.ArcCow) (b a : Nat) :
    v.clone = v
    ∧ v.clone.tag = v.tag
    ∧ RC.clone st (RC.ArcCow.Borrowed b) = (st, RC.ArcCow.Borrowed b)
    ∧ (RC.clone st (RC.ArcCow.Owned a)).2 = RC.ArcCow.Owned a
    ∧ ((RC.clone st w).2).tag = w.tag
    ∧ ((RC.clone st w).1).size = st.size
    ∧ (∀ c, ((RC.clone st w).1).read c = st.read c) := by
  refine ⟨?_, ?_, rfl, rfl, ?_, ?_, ?_⟩
  · cases v <;> rfl
  · cases v <;> rfl
  · cases w <;> rfl
  · cases w with
    | Borrowed r => rfl
    | Owned o => simp [RC.clone, RC.Store.size, RC.Store.bump, RC.modifyAt_length]
  · intro c
    cases w with
    | Borrowed r => rfl
    | Owned o => exact RC.Store.read_bump st o c

/-- Claim C4: conversion from `Cow` preserves the variant.  A
`Cow::Borrowed(s)` becomes `ArcCow::Borrowed` holding the same reference
and leaves the store untouched; a `Cow::Owned(s)` becomes
`ArcCow::Owned` whose dereferenced content equals `s`. -/
theorem C4_from_cow_preserves_variant {T : Type} (st : RC.Store T)
    (b : Nat) (s : T) :
    RC.from_cow st (RC.Cow.Borrowed b) = (st, RC.ArcCow.Borrowed b)
    ∧ ((RC.from_cow st (RC.Cow.Owned s)).2).tag = VariantTag.owned
    ∧ RC.derefV (RC.from_cow st (RC.Cow.Owned s)).1
        (RC.from_cow st (RC.Cow.Owned s)).2 = some s := by
  refine ⟨rfl, rfl, ?_⟩
  show RC.Store.read _ _ = some s
  simp [RC.from_cow, RC.Store.alloc, RC.ArcCow.deref, RC.Store.read,
    RC.lookup_append_self]

/-- Claim C5: text conversion variant mapping.  Converting a borrowed
text reference yields `Borrowed` with that text as dereferenced value,
converting an owned `String` yields `Owned` with the same dereferenced
value, and the two results are equal under the derived equality; in
particular both hold at the literal "abc". -/
theorem C5_text_conversion_variants (s : String) :
    ArcCow.from_ref s = ArcCow.Borrowed s
    ∧ (ArcCow.from_ref s).tag = VariantTag.borrowed
    ∧ (ArcCow.from_ref s).deref = s
    ∧ (ArcCow.from_string s).tag = VariantTag.owned
    ∧ (ArcCow.from_string s).deref = s
    ∧ ArcCow.beq (fun a b : String => a == b)
        (ArcCow.from_ref s) (ArcCow.from_string s) = true
    ∧ (ArcCow.from_ref "abc").deref = "abc"
    ∧ (ArcCow.from_string "abc").deref = "abc" := by
  refine ⟨rfl, rfl, rfl, rfl, rfl, ?_, rfl, rfl⟩
  simp [ArcCow.beq, ArcCow.as_ref, ArcCow.from_ref, ArcCow.from_string]

/-- Claim C6: converting a borrowed text reference to the byte form
yields `Borrowed` over exactly the UTF-8 bytes of the text; at the
literal "text" the bytes are 116, 101, 120, 116. -/
theorem C6_str_to_bytes (s : String) :
    ArcCow.from_str_bytes s = ArcCow.Borrowed (str_as_bytes s)
    ∧ (ArcCow.from_str_bytes s).tag = VariantTag.borrowed
    ∧ (ArcCow.from_str_bytes s).deref = str_as_bytes s
    ∧ str_as_bytes "text" = [116, 101, 120, 116] := by
  exact ⟨rfl, rfl, rfl, by decide⟩

/-- Claim C7: the Debug formatting of a value is exactly the formatting
of its dereferenced content under the formatter of `T`, so the two
variants holding equal content format identically. -/
theorem C7_debug_formatting {T : Type} (fmtT : T → String) (v : ArcCow T)
    (s : T) :
    ArcCow.fmt fmtT v = fmtT v.deref
    ∧ ArcCow.fmt fmtT (ArcCow.Borrowed s) = ArcCow.fmt fmtT (ArcCow.Owned s) := by
  refine ⟨?_, rfl⟩
  cases v <;> rfl

/-- Claim C8: reference count accounting.  Constructing `Owned` from a
reference to an existing Arc handle bumps the strong count of its cell
by exactly one and keeps the cell (the source handle stays valid and its
content is unchanged); cloning an `Owned` value bumps the count by
exactly one; dropping the clone returns the count to its value before
the clone. -/
theorem C8_refcount_accounting {T : Type} (st : RC.Store T) (a : Nat)
    (h : st.valid a) :
    ((RC.from_arc_ref st a).1).count a = st.count a + 1
    ∧ (RC.from_arc_ref st a).2 = RC.ArcCow.Owned a
    ∧ ((RC.from_arc_ref st a).1).read a = st.read a
    ∧ ((RC.clone st (RC.ArcCow.Owned a)).1).count a = st.count a + 1
    ∧ (RC.drop ((RC.clone st (RC.ArcCow.Owned a)).1)
        ((RC.clone st (RC.ArcCow.Owned a)).2)).count a = st.count a := by
  refine ⟨RC.Store.count_bump st a h, rfl, RC.Store.read_bump st a a,
    RC.Store.count_bump st a h, ?_⟩
  show ((st.bump a).dec a).count a = st.count a
  rw [RC.Store.count_dec, RC.Store.count_bump st a h]
  omega

/-- Witness for C8 on a one-cell store holding content 0 with strong
count 1 at address 0. -/
theorem C8_refcount_accounting_witness :
    RC.Store.valid (RC.Store.mk [((0 : Nat), 1)]) 0
    ∧ (((RC.from_arc_ref (RC.Store.mk [((0 : Nat), 1)]) 0).1).count 0
          = (RC.Store.mk [((0 : Nat), 1)]).count 0 + 1
      ∧ (RC.from_arc_ref (RC.Store.mk [((0 : Nat), 1)]) 0).2 = RC.ArcCow.Owned 0
      ∧ ((RC.from_arc_ref (RC.Store.mk [((0 : Nat), 1)]) 0).1).read 0
          = (RC.Store.mk [((0 : Nat), 1)]).read 0
      ∧ ((RC.clone (RC.Store.mk [((0 : Nat), 1)]) (RC.ArcCow.Owned 0)).1).count 0
          = (RC.Store.mk [((0 : Nat), 1)]).count 0 + 1
      ∧ (RC.drop ((RC.clone (RC.Store.mk [((0 : Nat), 1)]) (RC.ArcCow.Owned 0)).1)
          ((RC.clone (RC.Store.mk [((0 : Nat), 1)]) (RC.ArcCow.Owned 0)).2)).count 0
          = (RC.Store.mk [((0 : Nat), 1)]).count 0) :=
  ⟨by decide, C8_refcount_accounting (RC.Store.mk [((0 : Nat), 1)]) 0 (by decide)⟩

/-- Claim C9: totality.  Under the well formedness the borrow checker
enforces (every reference resolves to a live allocation), every fallible
read path of the reference model succeeds: dereferencing, equality,
total and optional comparison, hashing and formatting all return a
value; the remaining operations (conversions, clone, drop) are total by
construction. -/
theorem C9_totality {T σ : Type} (beqT : T → T → Bool)
    (cmpT : T → T → Ordering) (pcmpT : T → T → Option Ordering)
    (hashT : T → σ → σ) (fmtT : T → String) (s0 : σ)
    (st : RC.Store T) (x y : RC.ArcCow)
    (hx : RC.validIn st x) (hy : RC.validIn st y) :
    (RC.derefV st x).isSome = true
    ∧ (RC.beqV beqT st x y).isSome = true
    ∧ (RC.cmpV cmpT st x y).isSome = true
    ∧ (RC.pcmpV pcmpT st x y).isSome = true
    ∧ (RC.hashV hashT st x s0).isSome = true
    ∧ (RC.fmtV fmtT st x).isSome = true := by
  obtain ⟨a, ha⟩ := Option.isSome_iff_exists.mp hx
  obtain ⟨b, hb⟩ := Option.isSome_iff_exists.mp hy
  refine ⟨?_, ?_, ?_, ?_, ?_, ?_⟩ <;>
    simp [RC.derefV, RC.beqV, RC.cmpV, RC.pcmpV, RC.hashV, RC.fmtV,
      RC.ArcCow.deref_eq_as_ref, ha, hb]

/-- Witness for C9 on a one-cell store, a borrowed and an owned value
both resolving to address 0, with concrete delegate functions. -/
theorem C9_totality_witness :
    RC.validIn (RC.Store.mk [((7 : Nat), 1)]) (RC.ArcCow.Borrowed 0)
    ∧ RC.validIn (RC.Store.mk [((7 : Nat), 1)]) (RC.ArcCow.Owned 0)
    ∧ ((RC.derefV (RC.Store.mk [((7 : Nat), 1)]) (RC.ArcCow.Borrowed 0)).isSome = true
      ∧ (RC.beqV Nat.beq (RC.Store.mk [((7 : Nat), 1)])
          (RC.ArcCow.Borrowed 0) (RC.ArcCow.Owned 0)).isSome = true
      ∧ (RC.cmpV compare (RC.Store.mk [((7 : Nat), 1)])
          (RC.ArcCow.Borrowed 0) (RC.ArcCow.Owned 0)).isSome = true
      ∧ (RC.pcmpV (fun a b : Nat => some (compare a b)) (RC.Store.mk [((7 : Nat), 1)])
          (RC.ArcCow.Borrowed 0) (RC.ArcCow.Owned 0)).isSome = true
      ∧ (RC.hashV (fun t s => s * 31 + t) (RC.Store.mk [((7 : Nat), 1)])
          (RC.ArcCow.Borrowed 0) 0).isSome = true
      ∧ (RC.fmtV (fun t : Nat => toString t) (RC.Store.mk [((7 : Nat), 1)])
          (RC.ArcCow.Borrowed 0)).isSome = true) :=
  ⟨by decide, by decide,
    C9_totality Nat.beq compare (fun a b : Nat => some (compare a b))
      (fun t s => s * 31 + t) (fun t : Nat => toString t) 0
      (RC.Store.mk [((7 : Nat), 1)]) (RC.ArcCow.Borrowed 0) (RC.ArcCow.Owned 0)
      (by decide) (by decide)⟩

/-- Claim C10: the three read paths agree.  In both models, `deref`,
`as_ref` and `borrow` are extensionally equal, and on each variant they
return exactly the wrapped reference or the owned allocation. -/
theorem C10_read_paths_agree {T : Type} (v : ArcCow T) (x : T)
    (w : RC.ArcCow) :
    v.deref = v.as_ref
    ∧ v.as_ref = v.borrow
    ∧ ArcCow.deref (ArcCow.Borrowed x) = x
    ∧ ArcCow.deref (ArcCow.Owned x) = x
    ∧ w.deref = w.as_ref
    ∧ w.as_ref = w.borrow := by
  refine ⟨?_, ?_, rfl, rfl, ?_, ?_⟩
  · cases v <;> rfl
  · cases v <;> rfl
  · cases w <;> rfl
  · cases w <;> rfl
